import Mathlib

/-!
Shallow embedding of the MedPass core algorithms.

* `calculate_pass_probabilities` embeds `calculate_pass_probabilities`
  (src/main.py, lines 32-107).  The per-question input rows
  `(card_importance, best_score)` produced by the SQL query (max attempt
  score, `-1` when unattempted) are modelled as a `List (ℤ × ℤ)`.
  Python float arithmetic is modelled exactly by `ℚ`; Python `int()`
  (truncation toward zero) is `pyInt`, and `round(x, 1)` is `pyRound1`
  (round-half-to-even at one decimal).
* The PDF content-fitting packer embeds `estimate_content_size`,
  `select_content_for_pages` and the scale choice of `generate_lecture_pdf`
  (src/services/pdf_generator.py).
* The study-queue weak-mode filter embeds the `mode == "weak"` branch of
  `study_session` (src/routers/study.py, lines 79-98).
* Card creation/update embeds `create_card` / `update_card`
  (src/routers/cards.py) and the sanitizer of `extract_themes_from_content`
  (src/services/card_generator.py, lines 101-111).
-/

namespace MedPass

/-- Python `int()` applied to a real value: truncation toward zero. -/
def pyInt (q : ℚ) : ℤ := if 0 ≤ q then ⌊q⌋ else -⌊-q⌋

/-- Round-half-to-even to the nearest integer (Python `round(x)`). -/
def roundHalfEven (x : ℚ) : ℤ :=
  if x - ⌊x⌋ = 1/2 then (if ⌊x⌋ % 2 = 0 then ⌊x⌋ else ⌊x⌋ + 1) else round x

/-- Python `round(x, 1)`: one decimal place, half-to-even. -/
def pyRound1 (q : ℚ) : ℚ := (roundHalfEven (q * 10) : ℚ) / 10

/-! ## Pass-probability estimator (src/main.py, lines 32-107) -/

/-- The `total_weight` accumulator: sum of the card importances (`weight = importance`),
accumulated over all rows (src/main.py lines 64-70). -/
def totalWeight (l : List (ℤ × ℤ)) : ℤ := (l.map Prod.fst).sum

/-- The `weighted_score_sum` accumulator: `best_score * weight` accumulated over the
attempted rows (`best_score >= 0`), src/main.py lines 72-75. -/
def weightedScoreSum (l : List (ℤ × ℤ)) : ℤ :=
  (l.map (fun p => if 0 ≤ p.2 then p.2 * p.1 else 0)).sum

/-- The `studied_count` accumulator: number of attempted rows (src/main.py line 73). -/
def studiedCount (l : List (ℤ × ℤ)) : ℕ :=
  l.countP (fun p => decide (0 ≤ p.2))

/-- Computes `coverage = studied_count / total_count * 100 if total_count > 0 else 0`
(src/main.py line 78). -/
def coveragePct (l : List (ℤ × ℤ)) : ℚ :=
  if 0 < l.length then (studiedCount l : ℚ) / (l.length : ℚ) * 100 else 0

/-- Computes `weighted_avg = weighted_score_sum / total_weight if total_weight > 0
else 0` (src/main.py line 81). -/
def weightedAvg (l : List (ℤ × ℤ)) : ℚ :=
  if 0 < totalWeight l then (weightedScoreSum l : ℚ) / (totalWeight l : ℚ) else 0

/-- Computes `coverage_factor = min(1.0, studied_count / max(total_count * 0.7, 1))`
(src/main.py line 86). -/
def coverageFactor (l : List (ℤ × ℤ)) : ℚ :=
  min 1 ((studiedCount l : ℚ) / max ((l.length : ℚ) * (7/10)) 1)

/-- The inner `calc_prob(threshold_score)` closure (src/main.py lines
90-97): `min(100, max(0, int(score_ratio * coverage_factor * 100)))`. -/
def calc_prob (total_count : ℕ) (weighted_avg coverage_factor threshold_score : ℚ) : ℤ :=
  if total_count = 0 then 0
  else
    min 100 (max 0 (pyInt
      ((if 0 < threshold_score then weighted_avg / threshold_score else 0) *
        coverage_factor * 100)))

/-- The statistics record returned by `calculate_pass_probabilities`
(src/main.py lines 54-62 and 99-107). -/
structure PassStats where
  prob_60 : ℤ
  prob_80 : ℤ
  prob_90 : ℤ
  weighted_score : ℚ
  coverage : ℚ
  studied_count : ℕ
  total_count : ℕ
deriving DecidableEq, Repr

/-- Embeds `calculate_pass_probabilities` (src/main.py lines 32-107) on the rows
`(importance, best_score)` fetched for the user. -/
def calculate_pass_probabilities (l : List (ℤ × ℤ)) : PassStats :=
  if l.isEmpty then
    { prob_60 := 0, prob_80 := 0, prob_90 := 0, weighted_score := 0,
      coverage := 0, studied_count := 0, total_count := 0 }
  else
    { prob_60 := calc_prob l.length (weightedAvg l) (coverageFactor l) 6
      prob_80 := calc_prob l.length (weightedAvg l) (coverageFactor l) 8
      prob_90 := calc_prob l.length (weightedAvg l) (coverageFactor l) 9
      weighted_score := pyRound1 (weightedAvg l * 10)
      coverage := pyRound1 (coveragePct l)
      studied_count := studiedCount l
      total_count := l.length }

/-! ## PDF content-fitting packer (src/services/pdf_generator.py) -/

/-- A `Question` row as consumed by the PDF generator:
`question_text`, `answer_200`, `is_past_exam` (src/models.py fields used
in src/services/pdf_generator.py). -/
structure Question where
  question_text : String
  answer_200 : String
  is_past_exam : Bool
deriving DecidableEq, Repr

/-- A `Card` row with its related questions as consumed by the PDF
generator and the card routers. -/
structure Card where
  lecture_id : ℕ
  theme : String
  summary : String
  importance : ℤ
  questions : List Question
deriving DecidableEq, Repr

/-- The text-line charge `max(1, len(text) // 40 + 1)` applied when the
string is truthy (non-empty), `0` otherwise.  This expression appears
verbatim for summaries and answers in both `estimate_content_size`
(src/services/pdf_generator.py lines 101-108) and
`select_content_for_pages` (lines 140-148). -/
def textLines (s : String) : ℕ :=
  if s.length ≠ 0 then max 1 (s.length / 40 + 1) else 0

/-- Per-question charge of `estimate_content_size` (lines 105-111):
1 line question + answer lines + 1 line past-exam flag + 1 spacer. -/
def question_est_lines (q : Question) : ℕ :=
  1 + textLines q.answer_200 + (if q.is_past_exam then 1 else 0) + 1

/-- Embeds `estimate_content_size` (src/services/pdf_generator.py lines 92-115):
3 lines overhead, then per card 2 lines title + summary lines + question
lines + 1 card spacer. -/
def estimate_content_size (cards : List Card) : ℕ :=
  cards.foldl (fun lines c =>
    lines + 2 + textLines c.summary +
      c.questions.foldl (fun ql q => ql + question_est_lines q) 0 + 1) 3

/-- The `q_lines` charge of `select_content_for_pages` (lines 145-150):
2 lines (question + spacer) + answer lines + past-exam line. -/
def q_lines (q : Question) : ℕ :=
  2 + textLines q.answer_200 + (if q.is_past_exam then 1 else 0)

/-- The inner question loop of `select_content_for_pages` (lines
144-156): questions are kept while
`current_lines + card_lines + q_lines <= max_lines`; a question that does
not fit is dropped and flags truncation.  Returns
`(questions_to_include, card_lines, truncated)`. -/
def selectQuestions (current_lines : ℕ) (max_lines : ℤ) :
    List Question → ℕ → List Question × ℕ × Bool
  | [], card_lines => ([], card_lines, false)
  | q :: rest, card_lines =>
    if ((current_lines + card_lines + q_lines q : ℕ) : ℤ) ≤ max_lines then
      let r := selectQuestions current_lines max_lines rest (card_lines + q_lines q)
      (q :: r.1, r.2.1, r.2.2)
    else
      let r := selectQuestions current_lines max_lines rest card_lines
      (r.1, r.2.1, true)

/-- The outer card loop of `select_content_for_pages` (lines 138-167):
a card starts at `2 + summary` lines, its questions are packed, and the
card is kept only if `current_lines + card_lines <= max_lines`; otherwise
it is omitted and flags truncation.  Returns
`(selected, omitted_count, truncated)`. -/
def selectCards (max_lines : ℤ) :
    List Card → ℕ → List (Card × List Question) × ℕ × Bool
  | [], _ => ([], 0, false)
  | c :: rest, current_lines =>
    let r := selectQuestions current_lines max_lines c.questions
      (2 + textLines c.summary)
    if ((current_lines + r.2.1 : ℕ) : ℤ) ≤ max_lines then
      let r2 := selectCards max_lines rest (current_lines + r.2.1)
      ((c, r.1) :: r2.1, r2.2.1, r.2.2 || r2.2.2)
    else
      let r2 := selectCards max_lines rest current_lines
      (r2.1, r2.2.1 + 1, true)

/-- Stable insertion of `a` into a list sorted descending by `f`:
`a` goes before the first element with a strictly smaller key. -/
def insertImportanceDesc {α : Type} (f : α → ℤ) (a : α) : List α → List α
  | [] => [a]
  | b :: rest =>
    if f b < f a then a :: b :: rest else b :: insertImportanceDesc f a rest

/-- Stable sort by key descending, modelling Python
`sorted(cards, key=lambda c: c.importance, reverse=True)` (line 131). -/
def sortImportanceDesc {α : Type} (f : α → ℤ) : List α → List α
  | [] => []
  | a :: rest => insertImportanceDesc f a (sortImportanceDesc f rest)

/-- The effective line capacity used by the packer's fitting decision:
`lines_per_page = int(45 * scale)`, `max_lines = lines_per_page * max_pages`
(src/services/pdf_generator.py lines 127-128). -/
def effectiveMaxLines (max_pages : ℕ) (scale : ℚ) : ℤ :=
  pyInt (45 * scale) * max_pages

/-- Embeds `select_content_for_pages` (src/services/pdf_generator.py lines
118-169): sorts cards by importance descending, starts from 3 header
lines, and returns `(selected_cards, truncated, omitted_count)`. -/
def select_content_for_pages (cards : List Card) (max_pages : ℕ) (scale : ℚ) :
    List (Card × List Question) × Bool × ℕ :=
  let max_lines := effectiveMaxLines max_pages scale
  let sorted_cards := sortImportanceDesc (fun c => c.importance) cards
  let r := selectCards max_lines sorted_cards 3
  (r.1, r.2.2, r.2.1)

/-- The scale-factor choice of `generate_lecture_pdf` (lines 186-195):
`lines_per_page = 45`; estimate above `1.5 ×` capacity gives `0.75`,
above `1.0 ×` capacity gives `0.85`, else `1.0`. -/
def chooseScale (estimated_lines : ℕ) (max_pages : ℕ) : ℚ :=
  if (estimated_lines : ℚ) > 45 * max_pages * (3/2) then 3/4
  else if (estimated_lines : ℚ) > 45 * max_pages then 17/20
  else 1

/-! ### The claim-side and amended costing formulas for the estimate -/

/-- Computes `ceil(n / 40)`. -/
def ceilCharge (n : ℕ) : ℕ := (n + 39) / 40

/-- The content-size formula exactly as the specification words it (to be
compared with `estimate_content_size` from the source): 3 lines global
overhead, per card 2 title lines + `ceil(len(summary)/40)` when non-empty
+ per question 1 line + `ceil(len(answer)/40)` when non-empty + 1
past-exam line + 1 spacer, plus 1 spacer per card. -/
def claimCeilEstimate (cards : List Card) : ℕ :=
  3 + (cards.map (fun c =>
    2 + (if c.summary.length ≠ 0 then ceilCharge c.summary.length else 0) +
    (c.questions.map (fun q =>
      1 + (if q.answer_200.length ≠ 0 then ceilCharge q.answer_200.length else 0) +
      (if q.is_past_exam then 1 else 0) + 1)).sum + 1)).sum

/-- The charge the code actually applies to a text of length `n`:
`0` when empty, otherwise `n / 40 + 1` (floor division). -/
def floorCharge (n : ℕ) : ℕ := if n = 0 then 0 else n / 40 + 1

/-- Amended per-card cost as used by the packer (no trailing card
spacer): 2 title lines + summary charge + per question 2 lines + answer
charge + past-exam line. -/
def amendedCardLines (c : Card) : ℕ :=
  2 + floorCharge c.summary.length +
    (c.questions.map (fun q =>
      2 + floorCharge q.answer_200.length + (if q.is_past_exam then 1 else 0))).sum

/-- Amended estimate formula: the packer's per-card cost plus one spacer
line per card, plus the 3 global overhead lines. -/
def amendedEstimate (cards : List Card) : ℕ :=
  3 + (cards.map (fun c => amendedCardLines c + 1)).sum

/-! ## Study-queue weak mode (src/routers/study.py, lines 79-98) -/

/-- A question as seen by the study-session query: its card's importance
and the scores of its attempts. -/
structure StudyQuestion where
  id : ℕ
  importance : ℤ
  attempts : List ℤ
deriving DecidableEq, Repr

/-- The grouped subquery `func.max(Attempt.score)` per question:
`none` models SQL `NULL` (no attempts). -/
def best_score (attempts : List ℤ) : Option ℤ :=
  attempts.foldl (fun acc s =>
    match acc with
    | none => some s
    | some m => some (max m s)) none

/-- The weak-mode filter condition
`(best_score < 7) | (best_score == None)` (src/routers/study.py lines
86-88); under SQL three-valued logic a row passes iff its best score is
`NULL` or `< 7`. -/
def weakPred (q : StudyQuestion) : Bool :=
  match best_score q.attempts with
  | none => true
  | some s => decide (s < 7)

/-- The weak-mode study queue: the user/subject/lecture scope filter,
then the weak filter, then `ORDER BY importance DESC, random()`.  The
random tiebreak only permutes questions of equal importance, so it is
modelled by the stable descending sort. -/
def study_queue_weak (scope : StudyQuestion → Bool)
    (qs : List StudyQuestion) : List StudyQuestion :=
  sortImportanceDesc (fun q => q.importance) ((qs.filter scope).filter weakPred)

/-! ## Attempt recording and card create/update/extraction -/

/-- Embeds `record_attempt` (src/routers/questions.py lines 118-138): appends an
`Attempt` with the raw submitted score to the question's attempt list. -/
def record_attempt (attempts : List ℤ) (score : ℤ) : List ℤ :=
  attempts ++ [score]

/-- Embeds `update_card` (src/routers/cards.py lines 62-82): overwrites theme,
summary and importance with the submitted form values. -/
def update_card (c : Card) (theme summary : String) (importance : ℤ) : Card :=
  { c with theme := theme, summary := summary, importance := importance }

/-- Embeds `create_card` (src/routers/cards.py lines 38-59): builds a card from
the submitted form values. -/
def create_card (lecture_id : ℕ) (theme summary : String) (importance : ℤ) : Card :=
  { lecture_id := lecture_id, theme := theme, summary := summary,
    importance := importance, questions := [] }

/-- A record returned by the extraction service. -/
structure ExtractedCard where
  theme : String
  summary : String
  importance : ℤ
deriving DecidableEq, Repr

/-- The sanitizer of `extract_themes_from_content`
(src/services/card_generator.py lines 104-109):
`theme[:200]`, `summary[:500]`, `max(1, min(3, importance))`. -/
def sanitize_extracted (theme summary : String) (importance : ℤ) : ExtractedCard :=
  { theme := ⟨theme.data.take 200⟩, summary := ⟨summary.data.take 500⟩,
    importance := max 1 (min 3 importance) }

/-! ### Helper lemmas about the estimator -/

lemma coverageFactor_nonneg (l : List (ℤ × ℤ)) : 0 ≤ coverageFactor l := by
  unfold coverageFactor
  refine le_min (by norm_num) (div_nonneg (by positivity) ?_)
  exact le_trans (by norm_num) (le_max_right _ 1)

lemma max_pyInt_eq_max_floor (q : ℚ) : max 0 (pyInt q) = max 0 ⌊q⌋ := by
  unfold pyInt
  split_ifs with h0
  · rfl
  · push_neg at h0
    rw [max_eq_left, max_eq_left]
    · exact Int.floor_nonpos h0.le
    · have : (0:ℤ) ≤ ⌊-q⌋ := Int.floor_nonneg.mpr (by linarith)
      omega

lemma clamp_prob_nonpos {q : ℚ} (h : q ≤ 0) : min 100 (max 0 (pyInt q)) = 0 := by
  rw [max_pyInt_eq_max_floor, max_eq_left (Int.floor_nonpos h)]
  norm_num

lemma calc_prob_bounds (n : ℕ) (w c t : ℚ) :
    0 ≤ calc_prob n w c t ∧ calc_prob n w c t ≤ 100 := by
  unfold calc_prob
  split_ifs with hn ht <;> norm_num

lemma calc_prob_anti (n : ℕ) (w c : ℚ) (hc : 0 ≤ c) (t t' : ℚ)
    (ht : 0 < t) (htt : t ≤ t') :
    calc_prob n w c t' ≤ calc_prob n w c t := by
  have ht' : 0 < t' := lt_of_lt_of_le ht htt
  unfold calc_prob
  split_ifs with hn
  · exact le_refl 0
  · rcases le_or_lt 0 w with hw | hw
    · have hdiv : w / t' ≤ w / t := by gcongr
      have hraw : w / t' * c * 100 ≤ w / t * c * 100 := by
        exact mul_le_mul_of_nonneg_right (mul_le_mul_of_nonneg_right hdiv hc) (by norm_num)
      refine min_le_min (le_refl 100) ?_
      rw [max_pyInt_eq_max_floor, max_pyInt_eq_max_floor]
      exact max_le_max (le_refl 0) (Int.floor_le_floor hraw)
    · have hz : ∀ r : ℚ, r ≤ 0 → min 100 (max 0 (pyInt r)) = 0 :=
        fun r hr => clamp_prob_nonpos hr
      have h1 : w / t * c * 100 ≤ 0 := by
        have := div_nonpos_of_nonpos_of_nonneg hw.le ht.le
        nlinarith
      have h2 : w / t' * c * 100 ≤ 0 := by
        have := div_nonpos_of_nonpos_of_nonneg hw.le ht'.le
        nlinarith
      rw [hz _ h1, hz _ h2]

lemma length_le_totalWeight (l : List (ℤ × ℤ)) (h : ∀ p ∈ l, 1 ≤ p.1) :
    (l.length : ℤ) ≤ totalWeight l := by
  induction l with
  | nil => simp [totalWeight]
  | cons a t ih =>
    have ha : 1 ≤ a.1 := h a (List.mem_cons_self a t)
    have ht : (t.length : ℤ) ≤ totalWeight t :=
      ih (fun p hp => h p (List.mem_cons_of_mem a hp))
    simp only [totalWeight, List.map_cons, List.sum_cons, List.length_cons] at *
    push_cast
    linarith

lemma weightedScoreSum_nonneg (l : List (ℤ × ℤ)) (h : ∀ p ∈ l, 0 ≤ p.1) :
    0 ≤ weightedScoreSum l := by
  unfold weightedScoreSum
  apply List.sum_nonneg
  intro x hx
  obtain ⟨p, hp, rfl⟩ := List.mem_map.mp hx
  split_ifs with hs
  · exact mul_nonneg hs (h p hp)
  · exact le_refl 0

lemma calc_prob_mono (n n' : ℕ) (hn : n ≠ 0) (hn' : n' ≠ 0)
    (w w' c c' t : ℚ) (hw0 : 0 ≤ w) (hww : w ≤ w')
    (hc0 : 0 ≤ c) (hcc : c ≤ c') (ht : 0 < t) :
    calc_prob n w c t ≤ calc_prob n' w' c' t := by
  unfold calc_prob
  rw [if_neg hn, if_neg hn', if_pos ht, if_pos ht]
  refine min_le_min (le_refl _) ?_
  rw [max_pyInt_eq_max_floor, max_pyInt_eq_max_floor]
  refine max_le_max (le_refl _) (Int.floor_le_floor ?_)
  have h1 : w / t ≤ w' / t := by gcongr
  have h2 : 0 ≤ w / t := by positivity
  have h3 : w / t * c ≤ w' / t * c' := mul_le_mul h1 hcc hc0 (le_trans h2 h1)
  nlinarith



/-! ### Helper lemmas about the PDF packer -/

lemma textLines_eq_floorCharge (s : String) :
    textLines s = floorCharge s.length := by
  unfold textLines floorCharge
  rcases Nat.eq_zero_or_pos s.length with h | h
  · simp [h]
  · rw [if_pos (by omega), if_neg (by omega)]
    exact max_eq_right (by omega)

lemma question_fold_sum (qs : List Question) (n : ℕ) :
    qs.foldl (fun ql q => ql + question_est_lines q) n =
      n + (qs.map question_est_lines).sum := by
  induction qs generalizing n with
  | nil => simp
  | cons q rest ih =>
    rw [List.foldl_cons, ih]
    simp only [List.map_cons, List.sum_cons]
    omega

lemma estimate_go (cards : List Card) (n : ℕ) :
    cards.foldl (fun lines c =>
      lines + 2 + textLines c.summary +
        c.questions.foldl (fun ql q => ql + question_est_lines q) 0 + 1) n =
    n + (cards.map (fun c =>
      2 + textLines c.summary + (c.questions.map question_est_lines).sum + 1)).sum := by
  induction cards generalizing n with
  | nil => simp
  | cons c rest ih =>
    rw [List.foldl_cons, ih, question_fold_sum]
    simp only [List.map_cons, List.sum_cons]
    omega


lemma selectQuestions_length_le (current_lines : ℕ) (max_lines : ℤ)
    (qs : List Question) (cl : ℕ) :
    (selectQuestions current_lines max_lines qs cl).1.length ≤ qs.length := by
  induction qs generalizing cl with
  | nil => simp [selectQuestions]
  | cons q rest ih =>
    simp only [selectQuestions]
    split_ifs
    · simpa using ih (cl + q_lines q)
    · simpa using Nat.le_succ_of_le (ih cl)

lemma selectQuestions_flag (current_lines : ℕ) (max_lines : ℤ)
    (qs : List Question) (cl : ℕ) :
    ((selectQuestions current_lines max_lines qs cl).2.2 = false ↔
      (selectQuestions current_lines max_lines qs cl).1.length = qs.length) := by
  induction qs generalizing cl with
  | nil => simp [selectQuestions]
  | cons q rest ih =>
    simp only [selectQuestions]
    split_ifs
    · simpa using ih (cl + q_lines q)
    · have hle := selectQuestions_length_le current_lines max_lines rest cl
      simp only [List.length_cons]
      constructor
      · intro h
        exact absurd h (by simp)
      · intro h
        omega

lemma selectCards_flag (max_lines : ℤ) (cards : List Card) (cur : ℕ) :
    ((selectCards max_lines cards cur).2.2 = false ↔
      ((selectCards max_lines cards cur).2.1 = 0 ∧
        ∀ p ∈ (selectCards max_lines cards cur).1,
          p.2.length = p.1.questions.length)) := by
  induction cards generalizing cur with
  | nil => simp [selectCards]
  | cons c rest ih =>
    simp only [selectCards]
    split_ifs with h
    · simp only [Bool.or_eq_false_iff, List.mem_cons]
      constructor
      · rintro ⟨hq, ht⟩
        obtain ⟨hom, hall⟩ := (ih _).mp ht
        refine ⟨hom, ?_⟩
        rintro p (rfl | hp)
        · exact (selectQuestions_flag _ _ _ _).mp hq
        · exact hall p hp
      · rintro ⟨hom, hall⟩
        constructor
        · exact (selectQuestions_flag _ _ _ _).mpr (hall _ (Or.inl rfl))
        · exact (ih _).mpr ⟨hom, fun p hp => hall p (Or.inr hp)⟩
    · simp


/-! ### Helper lemmas about the study queue -/

lemma mem_insertImportanceDesc {α : Type} (f : α → ℤ) (a x : α) (l : List α) :
    (x ∈ insertImportanceDesc f a l ↔ x = a ∨ x ∈ l) := by
  induction l with
  | nil => simp [insertImportanceDesc]
  | cons b rest ih =>
    simp only [insertImportanceDesc]
    split_ifs
    · simp
    · simp only [List.mem_cons, ih]
      tauto

lemma mem_sortImportanceDesc {α : Type} (f : α → ℤ) (x : α) (l : List α) :
    (x ∈ sortImportanceDesc f l ↔ x ∈ l) := by
  induction l with
  | nil => simp [sortImportanceDesc]
  | cons a rest ih =>
    simp only [sortImportanceDesc, mem_insertImportanceDesc, List.mem_cons, ih]

end MedPass

namespace MedPass

/-- C1: the documented example scenario: two questions with rows
`(3, 8)` and `(1, -1)` give `total_weight = 4`, `studied_count = 1`,
`weighted_score_sum = 24`, `weighted_avg = 6.0`, `coverage = 50%`, and
probabilities `prob_60 = 71`, `prob_80 = 53`, `prob_90 = 47`. -/
theorem pass_probability_example_scenario :
    totalWeight [(3, 8), (1, -1)] = 4 ∧
    studiedCount [(3, 8), (1, -1)] = 1 ∧
    weightedScoreSum [(3, 8), (1, -1)] = 24 ∧
    weightedAvg [(3, 8), (1, -1)] = 6 ∧
    coveragePct [(3, 8), (1, -1)] = 50 ∧
    (calculate_pass_probabilities [(3, 8), (1, -1)]).prob_60 = 71 ∧
    (calculate_pass_probabilities [(3, 8), (1, -1)]).prob_80 = 53 ∧
    (calculate_pass_probabilities [(3, 8), (1, -1)]).prob_90 = 47 := by
  have havg : weightedAvg [(3, 8), (1, -1)] = 6 := by
    norm_num [weightedAvg, totalWeight, weightedScoreSum]
  have hcf : coverageFactor [(3, 8), (1, -1)] = 5/7 := by
    norm_num [coverageFactor, studiedCount]
  refine ⟨by decide, by decide, by decide, havg, ?_, ?_, ?_, ?_⟩
  · norm_num [coveragePct, studiedCount]
  · norm_num [calculate_pass_probabilities, havg, hcf, calc_prob, pyInt]
  · norm_num [calculate_pass_probabilities, havg, hcf, calc_prob, pyInt]
  · norm_num [calculate_pass_probabilities, havg, hcf, calc_prob, pyInt]

/-- C3: for every input row list `calculate_pass_probabilities` is total
(the embedding is a plain function, every division in the source is
guarded by the modelled `if`s) and returns `prob_60`, `prob_80`, `prob_90`
as integers in `[0, 100]`; on zero questions it returns the all-zero
record (`prob_60 = prob_80 = prob_90 = 0`, `weighted_score = 0`,
`coverage = 0`, `studied_count = 0`, `total_count = 0`). -/
theorem pass_probabilities_bounded_and_zero_case :
    (∀ l : List (ℤ × ℤ),
      (0 ≤ (calculate_pass_probabilities l).prob_60 ∧
        (calculate_pass_probabilities l).prob_60 ≤ 100) ∧
      (0 ≤ (calculate_pass_probabilities l).prob_80 ∧
        (calculate_pass_probabilities l).prob_80 ≤ 100) ∧
      (0 ≤ (calculate_pass_probabilities l).prob_90 ∧
        (calculate_pass_probabilities l).prob_90 ≤ 100)) ∧
    calculate_pass_probabilities [] =
      { prob_60 := 0, prob_80 := 0, prob_90 := 0, weighted_score := 0,
        coverage := 0, studied_count := 0, total_count := 0 } := by
  constructor
  · intro l
    unfold calculate_pass_probabilities
    split_ifs
    · norm_num
    · exact ⟨calc_prob_bounds _ _ _ _, calc_prob_bounds _ _ _ _,
        calc_prob_bounds _ _ _ _⟩
  · rfl

/-- C10: for every input row list, the three probabilities are ordered by
threshold: `prob_60 ≥ prob_80 ≥ prob_90`. -/
theorem probability_thresholds_ordered (l : List (ℤ × ℤ)) :
    (calculate_pass_probabilities l).prob_80 ≤
      (calculate_pass_probabilities l).prob_60 ∧
    (calculate_pass_probabilities l).prob_90 ≤
      (calculate_pass_probabilities l).prob_80 := by
  unfold calculate_pass_probabilities
  split_ifs
  · norm_num
  · constructor
    · exact calc_prob_anti _ _ _ (coverageFactor_nonneg l) 6 8
        (by norm_num) (by norm_num)
    · exact calc_prob_anti _ _ _ (coverageFactor_nonneg l) 8 9
        (by norm_num) (by norm_num)

/-- C2: with importances in `{1,2,3}` and best scores in `{-1} ∪ [0,10]`,
increasing one question's best score (holding every other input fixed)
never decreases any of `prob_60`, `prob_80`, `prob_90`.  The changed
question is the one between `pre` and `post`. -/
theorem pass_probabilities_monotone_in_best_score
    (pre post : List (ℤ × ℤ)) (w s s' : ℤ)
    (hall : ∀ p ∈ pre ++ (w, s) :: post,
      (1 ≤ p.1 ∧ p.1 ≤ 3) ∧ (p.2 = -1 ∨ (0 ≤ p.2 ∧ p.2 ≤ 10)))
    (hs' : s' = -1 ∨ (0 ≤ s' ∧ s' ≤ 10))
    (hinc : s ≤ s') :
    (calculate_pass_probabilities (pre ++ (w, s) :: post)).prob_60 ≤
      (calculate_pass_probabilities (pre ++ (w, s') :: post)).prob_60 ∧
    (calculate_pass_probabilities (pre ++ (w, s) :: post)).prob_80 ≤
      (calculate_pass_probabilities (pre ++ (w, s') :: post)).prob_80 ∧
    (calculate_pass_probabilities (pre ++ (w, s) :: post)).prob_90 ≤
      (calculate_pass_probabilities (pre ++ (w, s') :: post)).prob_90 := by
  have hone : ∀ p ∈ pre ++ (w, s) :: post, 1 ≤ p.1 := fun p hp => (hall p hp).1.1
  have hw1 : 1 ≤ w := (hall (w, s) (by simp)).1.1
  have hone' : ∀ p ∈ pre ++ (w, s') :: post, 1 ≤ p.1 := by
    intro p hp
    rcases List.mem_append.mp hp with hp | hp
    · exact hone p (List.mem_append_left _ hp)
    · rcases List.mem_cons.mp hp with rfl | hp
      · exact hw1
      · exact hone p (List.mem_append_right _ (List.mem_cons_of_mem _ hp))
  have hlen : (pre ++ (w, s') :: post).length = (pre ++ (w, s) :: post).length := by
    simp
  have htw : totalWeight (pre ++ (w, s') :: post) =
      totalWeight (pre ++ (w, s) :: post) := by
    simp [totalWeight]
  have htw_pos : 0 < totalWeight (pre ++ (w, s) :: post) := by
    have h1 : (1 : ℤ) ≤ ((pre ++ (w, s) :: post).length : ℤ) := by
      have : 1 ≤ (pre ++ (w, s) :: post).length := by simp; omega
      exact_mod_cast this
    linarith [length_le_totalWeight _ hone]
  have hcontrib : (if 0 ≤ s then s * w else 0) ≤ (if 0 ≤ s' then s' * w else 0) := by
    split_ifs with h1 h2 h2
    · exact mul_le_mul_of_nonneg_right hinc (by linarith)
    · exact absurd (le_trans h1 hinc) h2
    · exact mul_nonneg h2 (by linarith)
    · exact le_refl 0
  have hsum : weightedScoreSum (pre ++ (w, s) :: post) ≤
      weightedScoreSum (pre ++ (w, s') :: post) := by
    simp only [weightedScoreSum, List.map_append, List.sum_append,
      List.map_cons, List.sum_cons]
    linarith [hcontrib]
  have hsum0 : 0 ≤ weightedScoreSum (pre ++ (w, s) :: post) :=
    weightedScoreSum_nonneg _ (fun p hp => le_trans zero_le_one (hone p hp))
  have hsc : studiedCount (pre ++ (w, s) :: post) ≤
      studiedCount (pre ++ (w, s') :: post) := by
    simp only [studiedCount, List.countP_append, List.countP_cons,
      decide_eq_true_eq]
    split_ifs <;> omega
  have havg0 : 0 ≤ weightedAvg (pre ++ (w, s) :: post) := by
    unfold weightedAvg
    rw [if_pos htw_pos]
    have h1 : (0 : ℚ) ≤ (weightedScoreSum (pre ++ (w, s) :: post) : ℚ) := by
      exact_mod_cast hsum0
    have h2 : (0 : ℚ) < (totalWeight (pre ++ (w, s) :: post) : ℚ) := by
      exact_mod_cast htw_pos
    positivity
  have havg : weightedAvg (pre ++ (w, s) :: post) ≤
      weightedAvg (pre ++ (w, s') :: post) := by
    unfold weightedAvg
    rw [htw, if_pos htw_pos, if_pos htw_pos]
    have h2 : (0 : ℚ) < (totalWeight (pre ++ (w, s) :: post) : ℚ) := by
      exact_mod_cast htw_pos
    have h3 : (weightedScoreSum (pre ++ (w, s) :: post) : ℚ) ≤
        (weightedScoreSum (pre ++ (w, s') :: post) : ℚ) := by exact_mod_cast hsum
    gcongr
  have hcf : coverageFactor (pre ++ (w, s) :: post) ≤
      coverageFactor (pre ++ (w, s') :: post) := by
    unfold coverageFactor
    rw [hlen]
    refine min_le_min (le_refl 1) ?_
    have hd : (0 : ℚ) < max (((pre ++ (w, s) :: post).length : ℚ) * (7/10)) 1 :=
      lt_of_lt_of_le one_pos (le_max_right _ 1)
    have hsc' : (studiedCount (pre ++ (w, s) :: post) : ℚ) ≤
        (studiedCount (pre ++ (w, s') :: post) : ℚ) := by exact_mod_cast hsc
    gcongr
  have hcf0 : 0 ≤ coverageFactor (pre ++ (w, s) :: post) :=
    coverageFactor_nonneg _
  have hne : ¬((pre ++ (w, s) :: post).isEmpty = true) := by simp
  have hne' : ¬((pre ++ (w, s') :: post).isEmpty = true) := by simp
  have hn : (pre ++ (w, s) :: post).length ≠ 0 := by simp
  have hn' : (pre ++ (w, s') :: post).length ≠ 0 := by simp
  unfold calculate_pass_probabilities
  rw [if_neg hne, if_neg hne']
  exact ⟨calc_prob_mono _ _ hn hn' _ _ _ _ _ havg0 havg hcf0 hcf (by norm_num),
    calc_prob_mono _ _ hn hn' _ _ _ _ _ havg0 havg hcf0 hcf (by norm_num),
    calc_prob_mono _ _ hn hn' _ _ _ _ _ havg0 havg hcf0 hcf (by norm_num)⟩

/-- Witness for C2 at a concrete input: the unattempted question
`(3, -1)` is raised to score `8` next to a second question `(1, 5)`. -/
theorem pass_probabilities_monotone_witness :
    (∀ p ∈ ([] : List (ℤ × ℤ)) ++ ((3 : ℤ), (-1 : ℤ)) :: [((1 : ℤ), (5 : ℤ))],
      (1 ≤ p.1 ∧ p.1 ≤ 3) ∧ (p.2 = -1 ∨ (0 ≤ p.2 ∧ p.2 ≤ 10))) ∧
    ((8 : ℤ) = -1 ∨ ((0 : ℤ) ≤ 8 ∧ (8 : ℤ) ≤ 10)) ∧ ((-1 : ℤ) ≤ 8) ∧
    ((calculate_pass_probabilities ([] ++ (3, -1) :: [(1, 5)])).prob_60 ≤
      (calculate_pass_probabilities ([] ++ (3, 8) :: [(1, 5)])).prob_60 ∧
    (calculate_pass_probabilities ([] ++ (3, -1) :: [(1, 5)])).prob_80 ≤
      (calculate_pass_probabilities ([] ++ (3, 8) :: [(1, 5)])).prob_80 ∧
    (calculate_pass_probabilities ([] ++ (3, -1) :: [(1, 5)])).prob_90 ≤
      (calculate_pass_probabilities ([] ++ (3, 8) :: [(1, 5)])).prob_90) :=
  ⟨by decide, by decide, by decide,
    pass_probabilities_monotone_in_best_score [] [(1, 5)] 3 (-1) 8
      (by decide) (by decide) (by decide)⟩

/-- C4, counterexample: a single card with 45 answerless questions
estimates to 96 lines, so with a 2-page budget the compact scale `0.85`
is chosen; but the effective capacity at that scale,
`int(45 * 0.85) * 2 = 76`, is SMALLER than the capacity `90` at scale
`1.0`, contradicting the claim that a compact scale enlarges the capacity
available to `select_content_for_pages`. -/
theorem compact_scale_capacity_counterexample :
    chooseScale (estimate_content_size
      [⟨0, "t", "", 3, List.replicate 45 (⟨"q", "", false⟩ : Question)⟩]) 2
      = 17/20 ∧
    effectiveMaxLines 2 (17/20) < effectiveMaxLines 2 1 := by
  have hest : estimate_content_size
      [⟨0, "t", "", 3, List.replicate 45 (⟨"q", "", false⟩ : Question)⟩] = 96 := by
    decide
  constructor
  · rw [hest]
    norm_num [chooseScale]
  · norm_num [effectiveMaxLines, pyInt]

/-- C4, amended: whenever the scale choice is compact (`≠ 1.0`, i.e.
`0.85` or `0.75`), the effective line capacity used by the packer,
`int(45 * scale) * max_pages`, is strictly SMALLER than the capacity at
scale `1.0` (for any positive page budget). -/
theorem compact_scale_shrinks_capacity (cards : List Card) (max_pages : ℕ)
    (hmp : 1 ≤ max_pages)
    (hscale : chooseScale (estimate_content_size cards) max_pages ≠ 1) :
    effectiveMaxLines max_pages
        (chooseScale (estimate_content_size cards) max_pages) <
      effectiveMaxLines max_pages 1 := by
  have hmp' : (0 : ℤ) < (max_pages : ℤ) := by exact_mod_cast hmp
  unfold chooseScale at hscale ⊢
  split_ifs with h1 h2
  · have e1 : effectiveMaxLines max_pages (3/4) = 33 * max_pages := by
      norm_num [effectiveMaxLines, pyInt]
    have e2 : effectiveMaxLines max_pages 1 = 45 * max_pages := by
      norm_num [effectiveMaxLines, pyInt]
    rw [e1, e2]
    exact mul_lt_mul_of_pos_right (by norm_num) hmp'
  · have e1 : effectiveMaxLines max_pages (17/20) = 38 * max_pages := by
      norm_num [effectiveMaxLines, pyInt]
    have e2 : effectiveMaxLines max_pages 1 = 45 * max_pages := by
      norm_num [effectiveMaxLines, pyInt]
    rw [e1, e2]
    exact mul_lt_mul_of_pos_right (by norm_num) hmp'
  · rw [if_neg h1, if_neg h2] at hscale
    exact absurd rfl hscale

/-- Witness for the amended C4 at the concrete 45-question card and a
2-page budget. -/
theorem compact_scale_shrinks_capacity_witness :
    1 ≤ 2 ∧
    chooseScale (estimate_content_size
      [⟨0, "t", "", 3, List.replicate 45 (⟨"q", "", false⟩ : Question)⟩]) 2 ≠ 1 ∧
    effectiveMaxLines 2
        (chooseScale (estimate_content_size
          [⟨0, "t", "", 3, List.replicate 45 (⟨"q", "", false⟩ : Question)⟩]) 2) <
      effectiveMaxLines 2 1 := by
  have hest : estimate_content_size
      [⟨0, "t", "", 3, List.replicate 45 (⟨"q", "", false⟩ : Question)⟩] = 96 := by
    decide
  have hne : chooseScale (estimate_content_size
      [⟨0, "t", "", 3, List.replicate 45 (⟨"q", "", false⟩ : Question)⟩]) 2 ≠ 1 := by
    rw [hest]
    norm_num [chooseScale]
  exact ⟨by norm_num, hne, compact_scale_shrinks_capacity _ 2 (by norm_num) hne⟩

/-- C5, counterexample: a card whose summary has length exactly 40 (and
no questions) is charged `max(1, 40 // 40 + 1) = 2` summary lines by
`estimate_content_size` (total 8), while the claimed
`ceil(len/40) = 1` formula totals 7. -/
theorem content_size_ceil_counterexample :
    estimate_content_size
      [⟨0, "t", "aaaaaaaaaaaaaaaaaaaaaaaaaaaaaaaaaaaaaaaa", 2, []⟩] = 8 ∧
    claimCeilEstimate
      [⟨0, "t", "aaaaaaaaaaaaaaaaaaaaaaaaaaaaaaaaaaaaaaaa", 2, []⟩] = 7 := by
  decide

/-- C5, amended: for every card list the estimation pass charges
`len // 40 + 1` lines per non-empty text (not `ceil(len/40)`), with the
stated fixed overheads; and the packer's per-card costing
(`2 + summary lines` plus `q_lines` per question) equals the same
per-card formula WITHOUT the 1 spacer line per card, which only the
estimation pass adds. -/
theorem content_size_floor_charges :
    (∀ cards : List Card, estimate_content_size cards = amendedEstimate cards) ∧
    (∀ c : Card,
      amendedCardLines c = 2 + textLines c.summary + (c.questions.map q_lines).sum) := by
  have hq_eq : ∀ q : Question,
      question_est_lines q =
        2 + floorCharge q.answer_200.length + (if q.is_past_exam then 1 else 0) := by
    intro q
    unfold question_est_lines
    rw [textLines_eq_floorCharge]
    omega
  have hql_eq : ∀ q : Question,
      q_lines q = 2 + floorCharge q.answer_200.length +
        (if q.is_past_exam then 1 else 0) := by
    intro q
    unfold q_lines
    rw [textLines_eq_floorCharge]
  constructor
  · intro cards
    unfold estimate_content_size amendedEstimate
    rw [estimate_go cards 3]
    have hcard : ∀ c ∈ cards,
        2 + textLines c.summary + (c.questions.map question_est_lines).sum + 1 =
          amendedCardLines c + 1 := by
      intro c _
      have hmap : c.questions.map question_est_lines =
          c.questions.map (fun q =>
            2 + floorCharge q.answer_200.length + (if q.is_past_exam then 1 else 0)) :=
        List.map_congr_left (fun q _ => hq_eq q)
      unfold amendedCardLines
      rw [hmap, textLines_eq_floorCharge]
    rw [List.map_congr_left hcard]
  · intro c
    unfold amendedCardLines
    have hmap : c.questions.map q_lines =
        c.questions.map (fun q =>
          2 + floorCharge q.answer_200.length + (if q.is_past_exam then 1 else 0)) :=
      List.map_congr_left (fun q _ => hql_eq q)
    rw [hmap, textLines_eq_floorCharge]

/-- C6: for every card list, page budget and scale,
`select_content_for_pages` returns `truncated = false` iff
`omitted_count = 0` and every included card kept all of its questions. -/
theorem select_truncated_iff (cards : List Card) (max_pages : ℕ) (scale : ℚ) :
    ((select_content_for_pages cards max_pages scale).2.1 = false ↔
      ((select_content_for_pages cards max_pages scale).2.2 = 0 ∧
        ∀ p ∈ (select_content_for_pages cards max_pages scale).1,
          p.2.length = p.1.questions.length)) :=
  selectCards_flag _ _ _

/-- Witness for C6 at a concrete input: one card with one question and a
2-page budget at scale 1; nothing is truncated and the equivalence gives
`omitted_count = 0` with all questions kept. -/
theorem select_truncated_iff_witness :
    (select_content_for_pages [⟨0, "a", "", 3, [⟨"q", "", false⟩]⟩] 2 1).2.2 = 0 ∧
    ∀ p ∈ (select_content_for_pages [⟨0, "a", "", 3, [⟨"q", "", false⟩]⟩] 2 1).1,
      p.2.length = p.1.questions.length :=
  (select_truncated_iff [⟨0, "a", "", 3, [⟨"q", "", false⟩]⟩] 2 1).mp (by
    have h90 : effectiveMaxLines 2 1 = 90 := by norm_num [effectiveMaxLines, pyInt]
    simp only [select_content_for_pages, h90]
    decide)

/-- C7: the weak-mode study queue only contains questions whose best
attempt score is absent or `< 7`; it never contains a question with best
score `≥ 7`. -/
theorem weak_queue_only_weak_questions (scope : StudyQuestion → Bool)
    (qs : List StudyQuestion) (q : StudyQuestion)
    (hq : q ∈ study_queue_weak scope qs) :
    ∀ s : ℤ, best_score q.attempts = some s → s < 7 := by
  intro s hs
  unfold study_queue_weak at hq
  rw [mem_sortImportanceDesc] at hq
  have hp : weakPred q = true := (List.mem_filter.mp hq).2
  unfold weakPred at hp
  rw [hs] at hp
  exact of_decide_eq_true hp

/-- Witness for C7: a question with attempts `[5, 2]` (best score 5) is
in the weak queue and its best score is below 7. -/
theorem weak_queue_witness :
    (⟨1, 3, [5, 2]⟩ : StudyQuestion) ∈
      study_queue_weak (fun _ => true) [⟨1, 3, [5, 2]⟩] ∧
    best_score [5, 2] = some 5 ∧ (5 : ℤ) < 7 :=
  ⟨by decide, by decide,
    weak_queue_only_weak_questions (fun _ => true) [⟨1, 3, [5, 2]⟩] ⟨1, 3, [5, 2]⟩
      (by decide) 5 (by decide)⟩

/-- C8, counterexample: `record_attempt` stores the raw score, so a
stored attempt of 20 gives best score 20, and the estimator accumulates
it unclamped: a single question of importance 1 with best score 20 gives
`weighted_avg = 20`, outside `[0, 10]`. -/
theorem score_unclamped_counterexample :
    best_score (record_attempt [] 20) = some 20 ∧
    weightedAvg [(1, 20)] = 20 ∧ ¬(weightedAvg [(1, 20)] ≤ 10) := by
  refine ⟨by decide, ?_, ?_⟩
  · norm_num [weightedAvg, totalWeight, weightedScoreSum]
  · norm_num [weightedAvg, totalWeight, weightedScoreSum]

lemma weightedScoreSum_le_ten_totalWeight (l : List (ℤ × ℤ))
    (h : ∀ p ∈ l, 0 ≤ p.1 ∧ p.2 ≤ 10) :
    weightedScoreSum l ≤ 10 * totalWeight l := by
  induction l with
  | nil => simp [weightedScoreSum, totalWeight]
  | cons a t ih =>
    have ha := h a (List.mem_cons_self a t)
    have ht := ih (fun p hp => h p (List.mem_cons_of_mem a hp))
    simp only [weightedScoreSum, totalWeight, List.map_cons, List.sum_cons] at *
    have hcontrib : (if 0 ≤ a.2 then a.2 * a.1 else 0) ≤ 10 * a.1 := by
      split_ifs with hs
      · exact mul_le_mul_of_nonneg_right ha.2 ha.1
      · linarith [ha.1]
    nlinarith

/-- C8, amended: the estimator accumulates the stored best score without
clamping (see the counterexample); `weighted_avg` is guaranteed to stay
in `[0, 10]` only under the data-model invariant that importances lie in
`[1, 3]` and stored best scores lie in `{-1} ∪ [0, 10]`. -/
theorem weighted_avg_bounded_for_in_range_scores (l : List (ℤ × ℤ))
    (h : ∀ p ∈ l, (1 ≤ p.1 ∧ p.1 ≤ 3) ∧ (p.2 = -1 ∨ (0 ≤ p.2 ∧ p.2 ≤ 10))) :
    0 ≤ weightedAvg l ∧ weightedAvg l ≤ 10 := by
  unfold weightedAvg
  split_ifs with htw
  · have h0 : 0 ≤ weightedScoreSum l :=
      weightedScoreSum_nonneg l (fun p hp => by linarith [(h p hp).1.1])
    have h10 : weightedScoreSum l ≤ 10 * totalWeight l := by
      refine weightedScoreSum_le_ten_totalWeight l (fun p hp => ?_)
      obtain ⟨⟨h1, _⟩, hsc⟩ := h p hp
      rcases hsc with hm | ⟨_, h2⟩
      · exact ⟨by linarith, by rw [hm]; norm_num⟩
      · exact ⟨by linarith, h2⟩
    have htwq : (0 : ℚ) < (totalWeight l : ℚ) := by exact_mod_cast htw
    constructor
    · apply div_nonneg _ htwq.le
      exact_mod_cast h0
    · rw [div_le_iff₀ htwq]
      have : (weightedScoreSum l : ℚ) ≤ 10 * (totalWeight l : ℚ) := by
        exact_mod_cast h10
      linarith
  · norm_num

/-- Witness for the amended C8: one question of importance 1 with best
score 8 keeps `weighted_avg` within `[0, 10]`. -/
theorem weighted_avg_bounded_witness :
    (∀ p ∈ [((1 : ℤ), (8 : ℤ))],
      (1 ≤ p.1 ∧ p.1 ≤ 3) ∧ (p.2 = -1 ∨ (0 ≤ p.2 ∧ p.2 ≤ 10))) ∧
    (0 ≤ weightedAvg [(1, 8)] ∧ weightedAvg [(1, 8)] ≤ 10) :=
  ⟨by decide, weighted_avg_bounded_for_in_range_scores [(1, 8)] (by decide)⟩

/-- C9, counterexample: the card-update form handler stores the submitted
importance unclamped, so updating a card with importance 0 leaves
importance 0, violating the claimed `[1, 3]` clamp. -/
theorem importance_unclamped_counterexample :
    (update_card ⟨0, "", "", 2, []⟩ "t" "" 0).importance = 0 ∧
    ¬(1 ≤ (update_card ⟨0, "", "", 2, []⟩ "t" "" 0).importance) := by
  decide

/-- C9, amended: only the extraction-service sanitizer clamps importance
into `[1, 3]`; the form create/update handlers store the submitted
importance verbatim. -/
theorem importance_clamped_only_in_extraction :
    (∀ (t s : String) (imp : ℤ),
      1 ≤ (sanitize_extracted t s imp).importance ∧
        (sanitize_extracted t s imp).importance ≤ 3) ∧
    (∀ (c : Card) (t s : String) (imp : ℤ),
      (update_card c t s imp).importance = imp) ∧
    (∀ (lid : ℕ) (t s : String) (imp : ℤ),
      (create_card lid t s imp).importance = imp) := by
  refine ⟨fun t s imp => ?_, fun c t s imp => rfl, fun lid t s imp => rfl⟩
  unfold sanitize_extracted
  constructor
  · exact le_max_left 1 _
  · exact max_le (by norm_num) (min_le_left 3 imp)

end MedPass
